import Mathlib

/-!
# Verification of the gert media downloader (shallow embedding)

This file embeds the core of the `gert` Rust sources (`src/utils.rs`,
`src/download.rs`, `src/structs.rs`) into Lean 4 and proves or refutes the
frozen specification claims about them.

Modelling conventions:
* Rust `String`/`&str` become Lean `String`; byte strings become `List Nat`
  (each element < 256).
* The filesystem is modelled as the list of paths of files that exist.
* Network and external-process outcomes are inputs (oracles) to the embedded
  functions: the embedding is a pure function of the code's inputs plus these
  outcomes.
* The `u16` run counters are modelled as `Nat` (a run is far below 2^16; a
  `u16` overflow would panic in a debug build rather than wrap silently).
* External library functions called by the sources (the `md5` crate, the
  `url` crate, the `mime` crate, `xml-rs`) are modelled explicitly; the `md5`
  crate's digest is implemented in full (RFC 1321) so that every filename
  computation is executable.
-/

namespace Gert

/-! ## Bytes, UTF-8 and the md5 crate

`generate_file_name` (src/download.rs, line 345) calls `md5::compute(url)`
on the UTF-8 bytes of the URL and formats the 16-byte digest with `{:x}`
(32 lowercase hex characters).  We implement MD5 (RFC 1321) over `List Nat`
byte lists, with 32-bit words as `Nat` reduced `% 2^32`. -/

/-- UTF-8 encoding of one unicode scalar value as bytes. -/
def utf8Bytes (c : Char) : List Nat :=
  let n := c.toNat
  if n < 128 then [n]
  else if n < 2048 then [192 + n / 64, 128 + n % 64]
  else if n < 65536 then [224 + n / 4096, 128 + (n / 64) % 64, 128 + n % 64]
  else [240 + n / 262144, 128 + (n / 4096) % 64, 128 + (n / 64) % 64, 128 + n % 64]

/-- The UTF-8 bytes of a string, as Rust's `str::as_bytes`. -/
def strBytes (s : String) : List Nat := s.data.flatMap utf8Bytes

/-- Reduce to a 32-bit word. -/
def u32 (n : Nat) : Nat := n % 4294967296

/-- 32-bit left rotation. -/
def rotl32 (x s : Nat) : Nat :=
  Nat.lor (u32 (Nat.shiftLeft x s)) (Nat.shiftRight x (32 - s))

/-- 32-bit complement. -/
def not32 (x : Nat) : Nat := Nat.xor x 4294967295

/-- MD5 sine-derived round constants `K[i] = floor(2^32 * |sin(i+1)|)`. -/
def md5K : List Nat :=
  [3614090360, 3905402710, 606105819, 3250441966, 4118548399, 1200080426,
   2821735955, 4249261313, 1770035416, 2336552879, 4294925233, 2304563134,
   1804603682, 4254626195, 2792965006, 1236535329, 4129170786, 3225465664,
   643717713, 3921069994, 3593408605, 38016083, 3634488961, 3889429448,
   568446438, 3275163606, 4107603335, 1163531501, 2850285829, 4243563512,
   1735328473, 2368359562, 4294588738, 2272392833, 1839030562, 4259657740,
   2763975236, 1272893353, 4139469664, 3200236656, 681279174, 3936430074,
   3572445317, 76029189, 3654602809, 3873151461, 530742520, 3299628645,
   4096336452, 1126891415, 2878612391, 4237533241, 1700485571, 2399980690,
   4293915773, 2240044497, 1873313359, 4264355552, 2734768916, 1309151649,
   4149444226, 3174756917, 718787259, 3951481745]

/-- MD5 per-round left-rotation amounts. -/
def md5S : List Nat :=
  [7, 12, 17, 22, 7, 12, 17, 22, 7, 12, 17, 22, 7, 12, 17, 22,
   5, 9, 14, 20, 5, 9, 14, 20, 5, 9, 14, 20, 5, 9, 14, 20,
   4, 11, 16, 23, 4, 11, 16, 23, 4, 11, 16, 23, 4, 11, 16, 23,
   6, 10, 15, 21, 6, 10, 15, 21, 6, 10, 15, 21, 6, 10, 15, 21]

/-- The four MD5 chaining words. -/
structure MD5State where
  a : Nat
  b : Nat
  c : Nat
  d : Nat

/-- One of the 64 MD5 rounds, operating on the 16 words `m` of the block. -/
def md5Round (m : List Nat) (st : MD5State) (i : Nat) : MD5State :=
  let f :=
    if i < 16 then Nat.lor (Nat.land st.b st.c) (Nat.land (not32 st.b) st.d)
    else if i < 32 then Nat.lor (Nat.land st.d st.b) (Nat.land (not32 st.d) st.c)
    else if i < 48 then Nat.xor (Nat.xor st.b st.c) st.d
    else Nat.xor st.c (Nat.lor st.b (not32 st.d))
  let g :=
    if i < 16 then i
    else if i < 32 then (5 * i + 1) % 16
    else if i < 48 then (3 * i + 5) % 16
    else (7 * i) % 16
  let t := u32 (f + st.a + md5K.getD i 0 + m.getD g 0)
  { a := st.d, b := u32 (st.b + rotl32 t (md5S.getD i 0)), c := st.b, d := st.c }

/-- Assemble little-endian 32-bit words from a byte list. -/
def leWords : List Nat → List Nat
  | b0 :: b1 :: b2 :: b3 :: rest =>
      (b0 + 256 * (b1 + 256 * (b2 + 256 * b3))) :: leWords rest
  | _ => []

/-- Process one 64-byte block. -/
def md5Block (st : MD5State) (block : List Nat) : MD5State :=
  let m := leWords block
  let e := (List.range 64).foldl (md5Round m) st
  { a := u32 (st.a + e.a), b := u32 (st.b + e.b),
    c := u32 (st.c + e.c), d := u32 (st.d + e.d) }

/-- Process the message 64 bytes at a time.  The first argument is fuel
(structural recursion keeps the definition kernel-reducible); passing the
list's length as fuel always suffices. -/
def md5BlocksAux : Nat → MD5State → List Nat → MD5State
  | 0, st, _ => st
  | _, st, [] => st
  | fuel + 1, st, l => md5BlocksAux fuel (md5Block st (l.take 64)) (l.drop 64)

/-- Little-endian 8-byte encoding of a 64-bit value. -/
def le8 (n : Nat) : List Nat :=
  [n % 256, n / 256 % 256, n / 65536 % 256, n / 16777216 % 256,
   n / 4294967296 % 256, n / 1099511627776 % 256,
   n / 281474976710656 % 256, n / 72057594037927936 % 256]

/-- MD5 padding: a 1-bit, zeros to reach 56 mod 64 bytes, then the bit length. -/
def md5Pad (msg : List Nat) : List Nat :=
  let r := msg.length % 64
  msg ++ [128] ++ List.replicate ((119 - r) % 64) 0 ++ le8 ((8 * msg.length) % 18446744073709551616)

/-- The 16 digest bytes of a byte message (RFC 1321). -/
def md5Bytes (msg : List Nat) : List Nat :=
  let padded := md5Pad msg
  let st := md5BlocksAux padded.length
    ⟨1732584193, 4023233417, 2562383102, 271733878⟩ padded
  le8 st.a |>.take 4 |>.append ((le8 st.b).take 4)
    |>.append ((le8 st.c).take 4) |>.append ((le8 st.d).take 4)

/-- A lowercase hex digit. -/
def hexDigit (n : Nat) : Char :=
  if n < 10 then Char.ofNat (48 + n) else Char.ofNat (87 + n)

/-- Two-digit lowercase hex of one byte. -/
def byteHex (b : Nat) : List Char := [hexDigit (b / 16), hexDigit (b % 16)]

/-- `format!("{:x}", md5::compute(s))`: the 32-character lowercase hex digest
of the UTF-8 bytes of `s`. -/
def md5Hex (s : String) : String :=
  ⟨(md5Bytes (strBytes s)).flatMap byteHex⟩

/-! ## The Manifest Resolver: `parse_mpd` (src/utils.rs, lines 86-147)

`parse_mpd` streams the fetched MPD document through `xml::EventReader` and
folds over the events.  We model the relevant projection of an `xml-rs`
event: the element name and the attribute values the loop reads
(`contentType` on `AdaptationSet`, the already-parsed `bandwidth` on
`Representation`), plus text content, parse errors, and everything the loop
ignores (`EndElement`, whitespace, ...). -/

/-- One XML event, as observed by the `parse_mpd` loop. -/
inductive MpdEvent where
  /-- `StartElement` named `AdaptationSet`, with its `contentType`
  attribute value if present. -/
  | startAdaptationSet (contentType : Option String)
  /-- `StartElement` named `Representation`, with its `bandwidth`
  attribute value after `parse().ok()` (`none` if the attribute is
  absent or unparseable). -/
  | startRepresentation (bandwidth : Option Nat)
  /-- A `Characters` text event. -/
  | characters (content : String)
  /-- An `Err` from the reader: the loop prints it and breaks. -/
  | readError
  /-- Any other event: ignored by the loop's catch-all arm. -/
  | otherEvent
deriving DecidableEq

/-- The mutable state of the `parse_mpd` loop. -/
structure MpdState where
  maxVideoBandwidth : Nat
  maxAudioBandwidth : Nat
  currentBandwidth : Nat
  isVideo : Bool
  maxVideoUrl : Option String
  maxAudioUrl : Option String
deriving DecidableEq

/-- The loop-local initial values (src/utils.rs, lines 94-99). -/
def mpdInit : MpdState :=
  { maxVideoBandwidth := 0, maxAudioBandwidth := 0, currentBandwidth := 0,
    isVideo := false, maxVideoUrl := none, maxAudioUrl := none }

/-- One iteration of the `for e in parser` loop body (src/utils.rs,
lines 101-143), for the non-error events. -/
def mpdStep (s : MpdState) : MpdEvent → MpdState
  | .startAdaptationSet ct =>
      match ct with
      | some "video" => { s with isVideo := true }
      | some "audio" => { s with isVideo := false }
      | _ => s
  | .startRepresentation bw =>
      let current := bw.getD 0
      let s := { s with currentBandwidth := current }
      if s.isVideo ∧ current > s.maxVideoBandwidth then
        { s with maxVideoBandwidth := current }
      else if ¬ s.isVideo ∧ current > s.maxAudioBandwidth then
        { s with maxAudioBandwidth := current }
      else s
  | .characters content =>
      if s.isVideo ∧ s.currentBandwidth = s.maxVideoBandwidth then
        { s with maxVideoUrl := some content }
      else if ¬ s.isVideo ∧ s.currentBandwidth = s.maxAudioBandwidth then
        { s with maxAudioUrl := some content }
      else s
  | .readError => s
  | .otherEvent => s

/-- The event loop: an `Err` event aborts the scan (`break`), keeping
whatever was captured so far. -/
def mpdRun : MpdState → List MpdEvent → MpdState
  | s, [] => s
  | s, .readError :: _ => s
  | s, e :: es => mpdRun (mpdStep s e) es

/-- `parse_mpd`, as a function of the fetched document's event stream:
returns `(max_video_url, max_audio_url)`. -/
def parse_mpd (events : List MpdEvent) : Option String × Option String :=
  let s := mpdRun mpdInit events
  (s.maxVideoUrl, s.maxAudioUrl)

/-! ### Structured manifests and the selection the spec describes -/

/-- The kind of an adaptation set, per its `contentType` attribute. -/
inductive StreamKind where
  | video
  | audio
deriving DecidableEq

/-- One representation: a declared bandwidth and the URL text that
immediately follows it in the document. -/
structure Representation where
  bandwidth : Nat
  url : String
deriving DecidableEq

/-- One adaptation set: its kind and its representations in document
order. -/
structure AdaptationSet where
  kind : StreamKind
  reps : List Representation
deriving DecidableEq

/-- A manifest document: its adaptation sets in document order. -/
def Manifest : Type := List AdaptationSet

/-- The XML events of one representation element: its start tag followed by
its URL text content. -/
def renderRep (r : Representation) : List MpdEvent :=
  [.startRepresentation (some r.bandwidth), .characters r.url]

/-- The `contentType` attribute value of a kind. -/
def kindAttr : StreamKind → String
  | .video => "video"
  | .audio => "audio"

/-- The XML events of one adaptation set. -/
def renderSet (a : AdaptationSet) : List MpdEvent :=
  .startAdaptationSet (some (kindAttr a.kind)) :: a.reps.flatMap renderRep

/-- The XML event stream of a manifest document. -/
def renderManifest (m : Manifest) : List MpdEvent :=
  m.flatMap renderSet

/-- The representations of the given kind, in document order. -/
def repsOfKind (m : Manifest) (k : StreamKind) : List Representation :=
  (m.filter (fun a => a.kind = k)).flatMap (fun a => a.reps)

/-- The maximum declared bandwidth in a list of representations
(`0` if there are none). -/
def maxBandwidth (rs : List Representation) : Nat :=
  rs.foldl (fun acc r => max acc r.bandwidth) 0

/-- The URL of the last representation whose bandwidth attains the
maximum — the spec's selection, with ties going to the later-seen entry. -/
def bestUrl (rs : List Representation) : Option String :=
  ((rs.filter (fun r => r.bandwidth = maxBandwidth rs)).getLast?).map
    (fun r => r.url)

/-! ## Rust string primitives

Models of the `str` methods the sources use (`contains`, `starts_with`,
`ends_with`, `split`, `replace`, `to_lowercase`), implemented by structural
recursion over character lists so that every claim witness can be checked by
kernel evaluation. -/

/-- Whether `pat` is a prefix of `s`. -/
def isPreChars : List Char → List Char → Bool
  | [], _ => true
  | _ :: _, [] => false
  | p :: ps, c :: cs => p == c && isPreChars ps cs

/-- Whether `pat` occurs as a contiguous substring. -/
def occursChars (pat : List Char) : List Char → Bool
  | [] => pat.isEmpty
  | c :: cs => isPreChars pat (c :: cs) || occursChars pat cs

/-- Rust `str::contains` (substring test). -/
def containsStr (hay needle : String) : Bool :=
  occursChars needle.data hay.data

/-- Rust `str::starts_with`. -/
def startsWithStr (s pat : String) : Bool :=
  isPreChars pat.data s.data

/-- Rust `str::ends_with`. -/
def endsWithStr (s pat : String) : Bool :=
  isPreChars pat.data.reverse s.data.reverse

/-- Rust `str::split` with a one-character separator (which is how the
sources always call it): the pieces between separator occurrences, always
at least one piece. -/
def splitChar (sep : Char) : List Char → List (List Char)
  | [] => [[]]
  | c :: cs =>
      match splitChar sep cs with
      | [] => [[c]]
      | h :: t => if c == sep then [] :: h :: t else (c :: h) :: t

/-- Rust `str::split` on a string, one-character separator. -/
def splitStr (s : String) (sep : Char) : List String :=
  (splitChar sep s.data).map (fun l => ⟨l⟩)

/-- Rust `str::to_lowercase` (ASCII-faithful; the full Unicode mapping
differs only on exotic characters). -/
def toLowerStr (s : String) : String :=
  ⟨s.data.map Char.toLower⟩

/-- If `pat` is a prefix of `s`, return the rest of `s`. -/
def matchDrop (pat s : List Char) : Option (List Char) :=
  match pat, s with
  | [], rest => some rest
  | _ :: _, [] => none
  | p :: ps, c :: cs => if p == c then matchDrop ps cs else none

/-- Left-to-right, non-overlapping replacement; fuel-driven structural
recursion (fuel = input length always suffices for a nonempty pattern, the
only way the sources call it). -/
def replaceAux (pat rep : List Char) : Nat → List Char → List Char
  | _, [] => []
  | 0, s => s
  | fuel + 1, c :: cs =>
      match pat, matchDrop pat (c :: cs) with
      | _ :: _, some rest => rep ++ replaceAux pat rep fuel rest
      | _, _ => c :: replaceAux pat rep fuel cs

/-- Rust `str::replace` (all occurrences, left to right). -/
def replaceStr (s pat rep : String) : String :=
  ⟨replaceAux pat.data rep.data s.data.length s.data⟩

/-! ## Domain constants (src/download.rs, lines 20-46) -/

def JPG_EXTENSION : String := "jpg"
def PNG_EXTENSION : String := "png"
def GIF_EXTENSION : String := "gif"
def GIFV_EXTENSION : String := "gifv"
def MP4_EXTENSION : String := "mp4"

def REDDIT_IMAGE_SUBDOMAIN : String := "i.redd.it"
def REDDIT_VIDEO_SUBDOMAIN : String := "v.redd.it"
def REDGIFS_DOMAIN : String := "redgifs.com"
def GIPHY_DOMAIN : String := "giphy.com"
def IMGUR_DOMAIN : String := "imgur.com"
def IMGUR_SUBDOMAIN : String := "i.imgur.com"

/-- Modelled from the spec: the extension constants `JPG`, `JPEG`, `PNG`,
`GIF`, `GIFV`, `MP4` used by `Post::get_type` in src/structs.rs are declared
in a part of the repository not under src/; their values follow their names
and the `*_EXTENSION` twins in src/download.rs. -/
def JPG : String := "jpg"

def JPEG : String := "jpeg"
def PNG : String := "png"
def GIF : String := "gif"
def GIFV : String := "gifv"
def MP4 : String := "mp4"

/-- Modelled from the spec: `STREAMABLE_DOMAIN`, used by `Post::get_type`,
is declared outside src/; it names the external video host
(§4.2 ExternalVideoHost). -/
def STREAMABLE_DOMAIN : String := "streamable.com"

/-- Modelled from the spec: `has_extension`, called by `Post::get_type`, is
declared in a part of the repository not under src/.  Per §4.1 it
disambiguates a URL by file extension: true iff the lowercased URL ends in
one of the given extensions. -/
def has_extension (url : String) (extensions : List String) : Bool :=
  extensions.any (fun e => endsWithStr (toLowerStr url) e)

/-! ## The media classifier (src/structs.rs, lines 221-289) -/

/-- The `MediaType` tagged union.  The copy of the enum in src/download.rs
(lines 60-72) and the variants `Post::get_type` in src/structs.rs returns
are from slightly different revisions; this is their union. -/
inductive MediaType where
  | Gallery
  | RedditImage
  | RedditGif
  | RedditVideo
  | RedditVideoWithAudio
  | RedditVideoWithoutAudio
  | GfycatGif
  | RedGif
  | GiphyGif
  | ImgurImage
  | ImgurGif
  | ImgurAlbum
  | ImgurUnknown
  | StreamableVideo
  | Unsupported
deriving DecidableEq

/-- The one field of `MediaMetadata` the embedded code reads (`media.m`,
a MIME string such as `image/png`); `status`, `e`, `id` are never used. -/
structure MediaMetadata where
  m : String
deriving DecidableEq

/-- One gallery item; the numeric `id` field is never used. -/
structure GalleryItem where
  media_id : String
deriving DecidableEq

structure GalleryItems where
  items : List GalleryItem
deriving DecidableEq

/-- The one field of `RedditVideo` the embedded code reads. -/
structure RedditVideo where
  fallback_url : String
deriving DecidableEq

structure PostMedia where
  reddit_video : Option RedditVideo
deriving DecidableEq

/-- The fields of `PostData` (src/structs.rs, lines 98-143) that the
embedded code reads; `media_metadata`'s `HashMap` is modelled as an
association list. -/
structure PostData where
  subreddit : String
  name : String
  url : Option String
  title : Option String
  media_metadata : Option (List (String × MediaMetadata))
  gallery_data : Option GalleryItems
  media : Option PostMedia
deriving DecidableEq

/-- `HashMap::get` on the association-list model. -/
def metaLookup (mm : List (String × MediaMetadata)) (k : String) : Option MediaMetadata :=
  (mm.find? (fun p => p.1 == k)).map (fun p => p.2)

/-- Models the `url` crate steps in `Post::get_url` (src/structs.rs,
lines 222-232): `Url::parse`, `path_segments_mut().pop_if_empty()` and the
`[..Position::AfterPath]` slice, for well-formed absolute http(s) URLs —
drop the query and fragment, and drop one trailing empty path segment.
Non-http(s) inputs are parse failures (`None`). -/
def normalize_url (original : String) : Option String :=
  if startsWithStr original "http://" || startsWithStr original "https://" then
    let noFrag := (splitStr original '#').headD original
    let noQuery := (splitStr noFrag '?').headD noFrag
    some (if endsWithStr noQuery "/" then ⟨noQuery.data.dropLast⟩ else noQuery)
  else none

/-- `Post::get_url` (src/structs.rs, lines 222-232).  The Rust code unwraps
`data.url` (a panic when absent — `main` filters such posts out); we return
`none` in that case. -/
def get_url (p : PostData) : Option String := match p.url with
  | some u => normalize_url u
  | none => none

/-- The part of `Post::get_type` after the URL is normalized
(src/structs.rs, lines 243-287).  The reddit-image arm with an unrecognized
extension and the imgur-subdomain arm with an unrecognized extension only
log a warning and fall through to the remaining checks. -/
def get_type_url (p : PostData) (url : String) : MediaType :=
  let unmatched : MediaType :=
    if containsStr url STREAMABLE_DOMAIN then .StreamableVideo else .Unsupported
  if containsStr url REDDIT_IMAGE_SUBDOMAIN ∧ has_extension url [JPG, PNG, JPEG] then
    .RedditImage
  else if containsStr url REDDIT_IMAGE_SUBDOMAIN ∧ has_extension url [GIF] then
    .RedditGif
  else if containsStr url REDDIT_VIDEO_SUBDOMAIN then
    if p.media.isNone then .Unsupported else .RedditVideo
  else if containsStr url REDGIFS_DOMAIN then .RedGif
  else if containsStr url GIPHY_DOMAIN then .GiphyGif
  else if containsStr url IMGUR_DOMAIN then
    if containsStr url (IMGUR_DOMAIN ++ "/a/") then .ImgurAlbum
    else if containsStr url IMGUR_SUBDOMAIN then
      if has_extension url [GIFV, GIF, MP4] then .ImgurGif
      else if has_extension url [JPG, JPEG, PNG] then .ImgurImage
      else unmatched
    else .ImgurUnknown
  else unmatched

/-- `Post::get_type` (src/structs.rs, lines 234-288). -/
def get_type (p : PostData) : MediaType :=
  if p.gallery_data.isSome ∧ p.media_metadata.isSome then .Gallery
  else
    match get_url p with
    | none => .Unsupported
    | some url => get_type_url p url

/-! ## The downloader (src/download.rs) -/

/-- The `Downloader` configuration fields that the embedded code reads
(src/download.rs, lines 84-95); the counters live in `RunState` below. -/
structure Config where
  data_directory : String
  should_download : Bool
  use_human_readable : Bool
  ffmpeg_available : Bool
deriving DecidableEq

/-- `DownloadTask` (src/download.rs, lines 836-844). -/
structure DownloadTask where
  url : String
  subreddit : String
  extension : String
  post_name : String
  post_title : String
  index : Option Nat
deriving DecidableEq

/-- `DownloadTask::from_post` (src/download.rs, lines 845-856).  The Rust
code unwraps `post.data.title` (a panic when absent); we default to `""`. -/
def DownloadTask.from_post (p : PostData) (url : String) (extension : String)
    (index : Option Nat) : DownloadTask :=
  { url := url, subreddit := p.subreddit, extension := extension,
    post_name := p.name, post_title := p.title.getD "", index := index }

/-- The title sanitization inside `generate_file_name` (src/download.rs,
lines 348-369): lowercase, truncate to 200 characters, replace whitespace
and `.` `/` `\` `:` `=` by `_`. -/
def sanitizeTitle (title : String) : String :=
  ⟨((toLowerStr title).data.take 200).map (fun c =>
    if c.isWhitespace ∨ c = '.' ∨ c = '/' ∨ c = '\\' ∨ c = ':' ∨ c = '=' then '_' else c)⟩

/-- `generate_file_name` (src/download.rs, lines 331-380); argument order as
in the source: url, subreddit, extension, name, title, index. -/
def generate_file_name (cfg : Config) (url subreddit extension name title index : String) :
    String :=
  if ¬ cfg.use_human_readable then
    cfg.data_directory ++ "/" ++ subreddit ++ "/" ++ md5Hex url ++ "." ++ extension
  else
    let canonical_title := sanitizeTitle title
    let canonical_name :=
      replaceStr (if index = "0" then name else name ++ "_" ++ index) "." "_"
    cfg.data_directory ++ "/" ++ subreddit ++ "/" ++ canonical_title ++ "_" ++
      canonical_name ++ "." ++ extension

/-- `Downloader::get_filename` (src/download.rs, lines 827-833). -/
def get_filename (cfg : Config) (task : DownloadTask) : String :=
  let idx := match task.index with
    | some i => toString i
    | none => "0"
  generate_file_name cfg task.url task.subreddit task.extension
    task.post_name task.post_title idx

/-- The `GertError` constructors reachable in the embedded code
(src/errors.rs). -/
inductive GertError where
  | CouldNotCreateDirectory
  | IoError
  | ToStringConversionError
  | FromStringConversionError
  | ReqwestError
deriving DecidableEq

/-- Outcome of one `download_media` call (src/download.rs, lines 398-436),
supplied as an oracle: `success` is `Ok(true)` (media saved), `failure` is
`Ok(false)` (response or file error, logged), `fetchError` is `Err(_)`
(e.g. directory creation failed). -/
inductive DlResult where
  | success
  | failure
  | fetchError
deriving DecidableEq

/-- The external outcomes one task's processing can observe. -/
structure Oracle where
  dl : DlResult
  ffmpeg_exit : Bool
deriving DecidableEq

instance {α : Type} [DecidableEq α] : DecidableEq (Except GertError α) := fun x y =>
  match x, y with
  | .ok a, .ok b =>
      if h : a = b then isTrue (by rw [h])
      else isFalse (by intro hc; injection hc; contradiction)
  | .error a, .error b =>
      if h : a = b then isTrue (by rw [h])
      else isFalse (by intro hc; injection hc; contradiction)
  | .ok _, .error _ => isFalse (by intro hc; cases hc)
  | .error _, .ok _ => isFalse (by intro hc; cases hc)

/-- Result of `post_process`: the returned `Result`, the filesystem after,
and the argument lists of the transcoder invocations that were spawned. -/
structure PPResult where
  res : Except GertError Unit
  fs : List String
  calls : List (List String)
deriving DecidableEq

/-- The fixed ffmpeg argument template of the gif conversion
(src/download.rs, lines 806-810). -/
def ffmpeg_gif_args (download_path : String) : List String :=
  ["-i", download_path, "-movflags", "+faststart", "-pix_fmt", "yuv420p",
   "-vf", "scale=trunc(iw/2)*2:trunc(ih/2)*2",
   replaceStr download_path ".gif" ".mp4"]

/-- `Downloader::post_process` (src/download.rs, lines 799-824).  The
external transcoder's effect is modelled as: on a successful exit its output
file exists; on a non-zero exit it wrote nothing.  On success the source gif
is removed (`fs::remove_file`); on a non-zero exit the function does nothing
further and returns `Ok(())`. -/
def post_process (cfg : Config) (download_path : String) (task : DownloadTask)
    (exitSuccess : Bool) (fs : List String) : PPResult :=
  if ¬ cfg.ffmpeg_available then ⟨.ok (), fs, []⟩
  else if task.extension = GIF_EXTENSION then
    let args := ffmpeg_gif_args download_path
    if exitSuccess then
      ⟨.ok (), (fs ++ [replaceStr download_path ".gif" ".mp4"]).erase download_path, [args]⟩
    else ⟨.ok (), fs, [args]⟩
  else ⟨.ok (), fs, []⟩

/-- The run-statistics counters (`u16`s in `Downloader`, modelled as `Nat`)
together with the filesystem and the list of URLs passed to
`download_media` (the fetches actually performed). -/
structure RunState where
  supported : Nat
  skipped : Nat
  downloaded : Nat
  failed : Nat
  fs : List String
  fetched : List String
deriving DecidableEq

/-- `Downloader::schedule_task` (src/download.rs, lines 754-797).
`download_media`'s effect: on `success` the file exists at `file_name`;
`post_process` is then invoked and its error, if any, is only logged. -/
def schedule_task (cfg : Config) (task : DownloadTask) (o : Oracle)
    (s : RunState) : RunState :=
  let s := { s with supported := s.supported + 1 }
  if ¬ cfg.should_download then { s with skipped := s.skipped + 1 }
  else
    let file_name := get_filename cfg task
    if s.fs.contains file_name then { s with skipped := s.skipped + 1 }
    else
      let s := { s with fetched := s.fetched ++ [task.url] }
      match o.dl with
      | .success =>
          let s := { s with downloaded := s.downloaded + 1, fs := s.fs ++ [file_name] }
          let pp := post_process cfg file_name task o.ffmpeg_exit s.fs
          { s with fs := pp.fs }
      | .failure => { s with failed := s.failed + 1 }
      | .fetchError => { s with failed := s.failed + 1 }

/-- `Downloader::download_gallery` (src/download.rs, lines 719-733), as the
tasks it schedules.  It unwraps `gallery_data` and `media_metadata`, which
`process` guarantees to be present (`get_type` returned `Gallery`). -/
def download_gallery_tasks (p : PostData) : List DownloadTask :=
  match p.gallery_data, p.media_metadata with
  | some gallery, some mm =>
      gallery.items.enum.map (fun e =>
        let ext := match metaLookup mm e.2.media_id with
          | some media => (splitStr media.m '/').getLastD ""
          | none => JPG_EXTENSION
        let url := "https://" ++ REDDIT_IMAGE_SUBDOMAIN ++ "/" ++ e.2.media_id ++ "." ++ ext
        DownloadTask.from_post p url ext (some e.1))
  | _, _ => []

/-- `Downloader::download_reddit_image` (src/download.rs, lines 735-741), as
the task it schedules.  The raw `post.data.url` is used (unwrapped in Rust;
defaulted to `""` here). -/
def download_reddit_image_tasks (p : PostData) : List DownloadTask :=
  let url := p.url.getD ""
  let extension := (splitStr url '.').getLastD ""
  [DownloadTask.from_post p url extension none]

/-- The tasks `Downloader::process` (src/download.rs, lines 704-717)
schedules for one post: `Gallery`, `RedditImage` and `RedditGif` are
dispatched; every other media type hits the `_ => {}` arm. -/
def mkTasks (p : PostData) : List DownloadTask :=
  match get_type p with
  | .Gallery => download_gallery_tasks p
  | .RedditImage => download_reddit_image_tasks p
  | .RedditGif => download_reddit_image_tasks p
  | _ => []

/-- `Downloader::process` on one post: schedule each of its tasks in order,
with `orc` supplying each task's external outcomes. -/
def process (cfg : Config) (p : PostData) (orc : DownloadTask → Oracle)
    (s : RunState) : RunState :=
  (mkTasks p).foldl (fun st t => schedule_task cfg t (orc t) st) s

/-! ## The component-assembly (mux) step
(src/download.rs, lines 240-304, inside `download_collection`) -/

/-- The mux step for a two-component reddit video, as a filesystem
transformer.  On a successful ffmpeg exit it removes each single-stream
component file and renames the temporary combined file (written outside the
data directory) to the combined name; on a non-zero exit it only writes a
log file named by `generate_file_name` with extension `log` and leaves the
component files alone. -/
def assemble_components (cfg : Config) (fs : List String)
    (media_files : List String) (first_url subreddit name title : String)
    (exitSuccess : Bool) : List String :=
  let extension := (splitStr first_url '.').getLastD "unknown"
  let combined_file_name :=
    generate_file_name cfg first_url subreddit extension name title "0"
  if exitSuccess then
    (media_files.foldl (fun acc f => acc.erase f) fs) ++ [combined_file_name]
  else
    let log_file_name := generate_file_name cfg first_url subreddit "log" name title "0"
    fs ++ [log_file_name]

/-! ## The content-type probe (src/utils.rs, lines 48-65) -/

/-- The observed HEAD response: the raw `Content-Type` header value if
present (assumed visible-ASCII, so `to_str` succeeds). -/
structure HeadResponse where
  content_type : Option String
deriving DecidableEq

/-- Minimal model of `mime::Mime::from_str`: `type/subtype` with both parts
nonempty; parameters after `;` are dropped.  Unparseable values are `none`
(the Rust `?` turns that into `GertError::FromStringConversionError`). -/
def mimeParse (s : String) : Option (String × String) :=
  match splitStr s '/' with
  | [t, rest] =>
      let sub := (splitStr rest ';').headD rest
      if t.data.isEmpty ∨ sub.data.isEmpty then none else some (t, sub)
  | _ => none

/-- `check_url_has_mime_type` (src/utils.rs, lines 48-65), as a function of
the HEAD response.  The Rust body computes `success` as
`matches!(content_type.subtype(), _mime_type)`: `_mime_type` there is a
fresh irrefutable binding pattern (it shadows the `mime_type` parameter), so
the `matches!` is true for every parsed subtype; we reproduce that with the
same irrefutable match. -/
def check_url_has_mime_type (resp : HeadResponse) (mime_type : String) :
    Except GertError Bool :=
  match resp.content_type with
  | none => .ok false
  | some raw =>
      match mimeParse raw with
      | none => .error .FromStringConversionError
      | some content_type =>
          let success := match content_type.2 with
            | _mime_type => true
          .ok success

/-! ## The run loop (src/download.rs, lines 120-146)

`Downloader::run` iterates `for post in self.posts.iter()` and awaits
`self.process(post)` to completion before the next iteration.  We model the
run as its trace of pipeline start/finish events in that order. -/

/-- A post's pipeline starting or finishing. -/
inductive RunEvent where
  | start (p : PostData)
  | finish (p : PostData)

/-- The event trace of `Downloader::run`: strictly sequential, each post's
pipeline finishes before the next one starts. -/
def runTrace (posts : List PostData) : List RunEvent :=
  posts.flatMap (fun p => [.start p, .finish p])

/-- The number of pipelines in flight after a trace: starts minus
finishes (the number of semaphore permits that would be outstanding). -/
def inFlight (tr : List RunEvent) : Nat :=
  tr.foldl (fun n e => match e with
    | .start _ => n + 1
    | .finish _ => n - 1) 0

/-! ## Concrete fixtures used by witnesses and counterexamples -/

/-- A hash-mode, non-dry-run configuration with the transcoder available. -/
def cfgHash : Config := ⟨".", true, false, true⟩

/-- A post whose URL host matches no known site signature. -/
def postUnknownHost : PostData :=
  ⟨"pics", "t3_x", some "https://example.com/x", some "t", none, none, none⟩

/-- A reddit-hosted gif task. -/
def taskGif : DownloadTask :=
  ⟨"https://i.redd.it/abc.gif", "pics", "gif", "t3_x", "title", none⟩

/-- External outcomes: fetch succeeded, transcoder exited successfully. -/
def oracleOk : Oracle := ⟨.success, true⟩

/-- The loop invariant for `parse_mpd`, tying the state to the
representations scanned so far: `V`/`A` are the video/audio representations
already seen, in document order. -/
def MpdInv (s : MpdState) (V A : List Representation) : Prop :=
  s.maxVideoBandwidth = maxBandwidth V ∧
  s.maxAudioBandwidth = maxBandwidth A ∧
  s.maxVideoUrl = bestUrl V ∧
  s.maxAudioUrl = bestUrl A

set_option maxRecDepth 10000000

/-! ## Proofs about the Manifest Resolver -/

lemma maxBandwidth_snoc (rs : List Representation) (r : Representation) :
    maxBandwidth (rs ++ [r]) = max (maxBandwidth rs) r.bandwidth := by
  simp [maxBandwidth, List.foldl_append]

lemma bestUrl_snoc (rs : List Representation) (r : Representation) :
    bestUrl (rs ++ [r]) =
      if maxBandwidth rs ≤ r.bandwidth then some r.url else bestUrl rs := by
  unfold bestUrl
  by_cases h : maxBandwidth rs ≤ r.bandwidth
  · have hm : maxBandwidth (rs ++ [r]) = r.bandwidth := by
      rw [maxBandwidth_snoc]; exact max_eq_right h
    simp [hm, List.filter_append, h, List.getLast?_concat]
  · have hlt : r.bandwidth < maxBandwidth rs := Nat.lt_of_not_le h
    have hm : maxBandwidth (rs ++ [r]) = maxBandwidth rs := by
      rw [maxBandwidth_snoc]; exact max_eq_left (Nat.le_of_lt hlt)
    have hne : ¬ (r.bandwidth = maxBandwidth rs) := Nat.ne_of_lt hlt
    simp [hm, List.filter_append, hne, h]

lemma mpdRun_append (xs ys : List MpdEvent) (h : MpdEvent.readError ∉ xs) (s : MpdState) :
    mpdRun s (xs ++ ys) = mpdRun (mpdRun s xs) ys := by
  induction xs generalizing s with
  | nil => rfl
  | cons e es ih =>
      have he : e ≠ .readError := fun hc => h (hc ▸ List.mem_cons_self e es)
      have hes : MpdEvent.readError ∉ es := fun hc => h (List.mem_cons_of_mem e hc)
      cases e with
      | readError => exact absurd rfl he
      | startAdaptationSet ct => simpa [mpdRun] using ih hes _
      | startRepresentation bw => simpa [mpdRun] using ih hes _
      | characters c => simpa [mpdRun] using ih hes _
      | otherEvent => simpa [mpdRun] using ih hes _

lemma renderRep_no_err (rs : List Representation) :
    MpdEvent.readError ∉ rs.flatMap renderRep := by
  intro hmem
  rcases List.mem_flatMap.mp hmem with ⟨r, _, hr⟩
  simp [renderRep] at hr

lemma mpdStep_rep_video (mv ma cb : Nat) (uv ua : Option String) (bw : Nat) :
    mpdStep ⟨mv, ma, cb, true, uv, ua⟩ (.startRepresentation (some bw)) =
      ⟨max mv bw, ma, bw, true, uv, ua⟩ := by
  simp only [mpdStep, Option.getD]
  split <;> (try split) <;> simp_all <;> omega

lemma mpdStep_rep_audio (mv ma cb : Nat) (uv ua : Option String) (bw : Nat) :
    mpdStep ⟨mv, ma, cb, false, uv, ua⟩ (.startRepresentation (some bw)) =
      ⟨mv, max ma bw, bw, false, uv, ua⟩ := by
  simp only [mpdStep, Option.getD]
  split <;> (try split) <;> simp_all <;> omega

lemma mpdStep_chars_video (mv ma cb : Nat) (uv ua : Option String) (c : String) :
    mpdStep ⟨mv, ma, cb, true, uv, ua⟩ (.characters c) =
      ⟨mv, ma, cb, true, if cb = mv then some c else uv, ua⟩ := by
  simp only [mpdStep]
  split <;> (try split) <;> simp_all

lemma mpdStep_chars_audio (mv ma cb : Nat) (uv ua : Option String) (c : String) :
    mpdStep ⟨mv, ma, cb, false, uv, ua⟩ (.characters c) =
      ⟨mv, ma, cb, false, uv, if cb = ma then some c else ua⟩ := by
  simp only [mpdStep]
  split <;> (try split) <;> simp_all

lemma run_reps_video (rs : List Representation) (s : MpdState) (V A : List Representation)
    (hinv : MpdInv s V A) (hv : s.isVideo = true) :
    MpdInv (mpdRun s (rs.flatMap renderRep)) (V ++ rs) A ∧
      (mpdRun s (rs.flatMap renderRep)).isVideo = true := by
  induction rs generalizing s V with
  | nil => simpa using ⟨hinv, hv⟩
  | cons r rs ih =>
      obtain ⟨mv, ma, cb, iv, uv, ua⟩ := s
      obtain ⟨h1, h2, h3, h4⟩ := hinv
      simp only [MpdState.isVideo] at hv
      subst hv
      simp only [MpdState.maxVideoBandwidth, MpdState.maxAudioBandwidth,
        MpdState.maxVideoUrl, MpdState.maxAudioUrl] at h1 h2 h3 h4
      have hrun : mpdRun ⟨mv, ma, cb, true, uv, ua⟩ ((r :: rs).flatMap renderRep)
          = mpdRun (mpdStep (mpdStep ⟨mv, ma, cb, true, uv, ua⟩
              (.startRepresentation (some r.bandwidth))) (.characters r.url))
              (rs.flatMap renderRep) := rfl
      rw [hrun, mpdStep_rep_video, mpdStep_chars_video]
      have hnew : MpdInv ⟨max mv r.bandwidth, ma, r.bandwidth, true,
          if r.bandwidth = max mv r.bandwidth then some r.url else uv, ua⟩
          (V ++ [r]) A := by
        refine ⟨?_, h2, ?_, h4⟩
        · simp [maxBandwidth_snoc, h1]
        · rw [bestUrl_snoc, ← h1, h3]
          by_cases hle : mv ≤ r.bandwidth
          · simp [hle, max_eq_right hle]
          · have : ¬ (r.bandwidth = max mv r.bandwidth) := by
              rw [max_eq_left (Nat.le_of_lt (Nat.lt_of_not_le hle))]
              omega
            simp [hle, this]
      have := ih _ _ hnew rfl
      simpa [List.append_assoc] using this

lemma run_reps_audio (rs : List Representation) (s : MpdState) (V A : List Representation)
    (hinv : MpdInv s V A) (hv : s.isVideo = false) :
    MpdInv (mpdRun s (rs.flatMap renderRep)) V (A ++ rs) ∧
      (mpdRun s (rs.flatMap renderRep)).isVideo = false := by
  induction rs generalizing s A with
  | nil => simpa using ⟨hinv, hv⟩
  | cons r rs ih =>
      obtain ⟨mv, ma, cb, iv, uv, ua⟩ := s
      obtain ⟨h1, h2, h3, h4⟩ := hinv
      simp only [MpdState.isVideo] at hv
      subst hv
      simp only [MpdState.maxVideoBandwidth, MpdState.maxAudioBandwidth,
        MpdState.maxVideoUrl, MpdState.maxAudioUrl] at h1 h2 h3 h4
      have hrun : mpdRun ⟨mv, ma, cb, false, uv, ua⟩ ((r :: rs).flatMap renderRep)
          = mpdRun (mpdStep (mpdStep ⟨mv, ma, cb, false, uv, ua⟩
              (.startRepresentation (some r.bandwidth))) (.characters r.url))
              (rs.flatMap renderRep) := rfl
      rw [hrun, mpdStep_rep_audio, mpdStep_chars_audio]
      have hnew : MpdInv ⟨mv, max ma r.bandwidth, r.bandwidth, false,
          uv, if r.bandwidth = max ma r.bandwidth then some r.url else ua⟩
          V (A ++ [r]) := by
        refine ⟨h1, ?_, h3, ?_⟩
        · simp [maxBandwidth_snoc, h2]
        · rw [bestUrl_snoc, ← h2, h4]
          by_cases hle : ma ≤ r.bandwidth
          · simp [hle, max_eq_right hle]
          · have : ¬ (r.bandwidth = max ma r.bandwidth) := by
              rw [max_eq_left (Nat.le_of_lt (Nat.lt_of_not_le hle))]
              omega
            simp [hle, this]
      have := ih _ _ hnew rfl
      simpa [List.append_assoc] using this

lemma repsOfKind_cons (a : AdaptationSet) (sets : List AdaptationSet) (k : StreamKind) :
    repsOfKind (a :: sets) k =
      (if a.kind = k then a.reps else []) ++ repsOfKind sets k := by
  by_cases h : a.kind = k <;> simp [repsOfKind, List.filter_cons, h]

lemma run_sets (sets : List AdaptationSet) (s : MpdState) (V A : List Representation)
    (hinv : MpdInv s V A) :
    MpdInv (mpdRun s (sets.flatMap renderSet))
      (V ++ repsOfKind sets .video) (A ++ repsOfKind sets .audio) := by
  induction sets generalizing s V A with
  | nil => simpa [repsOfKind] using hinv
  | cons a sets ih =>
      have hsplit : (a :: sets).flatMap renderSet
          = (renderSet a) ++ sets.flatMap renderSet := by simp
      rw [hsplit]
      have hset : renderSet a
          = .startAdaptationSet (some (kindAttr a.kind)) :: a.reps.flatMap renderRep := rfl
      rw [hset]
      cases hk : a.kind with
      | video =>
          have h1 : mpdRun s ((MpdEvent.startAdaptationSet (some (kindAttr .video))
              :: a.reps.flatMap renderRep) ++ sets.flatMap renderSet)
              = mpdRun (mpdRun { s with isVideo := true } (a.reps.flatMap renderRep))
                  (sets.flatMap renderSet) := by
            rw [List.cons_append]
            have h2 : mpdRun s (MpdEvent.startAdaptationSet (some (kindAttr .video))
                :: (a.reps.flatMap renderRep ++ sets.flatMap renderSet))
                = mpdRun { s with isVideo := true }
                    (a.reps.flatMap renderRep ++ sets.flatMap renderSet) := by
              simp [mpdRun, mpdStep, kindAttr]
            rw [h2, mpdRun_append _ _ (renderRep_no_err _)]
          rw [h1]
          have hinv1 : MpdInv { s with isVideo := true } V A := hinv
          obtain ⟨hinv2, hv2⟩ := run_reps_video a.reps _ V A hinv1 rfl
          have := ih _ _ _ hinv2
          simpa [repsOfKind_cons, hk, List.append_assoc] using this
      | audio =>
          have h1 : mpdRun s ((MpdEvent.startAdaptationSet (some (kindAttr .audio))
              :: a.reps.flatMap renderRep) ++ sets.flatMap renderSet)
              = mpdRun (mpdRun { s with isVideo := false } (a.reps.flatMap renderRep))
                  (sets.flatMap renderSet) := by
            rw [List.cons_append]
            have h2 : mpdRun s (MpdEvent.startAdaptationSet (some (kindAttr .audio))
                :: (a.reps.flatMap renderRep ++ sets.flatMap renderSet))
                = mpdRun { s with isVideo := false }
                    (a.reps.flatMap renderRep ++ sets.flatMap renderSet) := by
              simp [mpdRun, mpdStep, kindAttr]
            rw [h2, mpdRun_append _ _ (renderRep_no_err _)]
          rw [h1]
          have hinv1 : MpdInv { s with isVideo := false } V A := hinv
          obtain ⟨hinv2, hv2⟩ := run_reps_audio a.reps _ V A hinv1 rfl
          have := ih _ _ _ hinv2
          simpa [repsOfKind_cons, hk, List.append_assoc] using this

/-- C1: For every manifest document, `parse_mpd` selects, for each kind
(video and audio), the URL text following the representation with the
maximum declared bandwidth for that kind — ties going to the later-seen
equal-maximum entry (`bestUrl` takes the last representation attaining the
maximum) — and in particular, for a manifest with video bandwidths
{500, 1500, 900} and audio bandwidths {128, 256}, it returns the URL of the
bandwidth-1500 video representation and the URL of the bandwidth-256 audio
representation. -/
theorem parse_mpd_selects_max_bandwidth :
    (∀ m : Manifest,
        parse_mpd (renderManifest m)
          = (bestUrl (repsOfKind m .video), bestUrl (repsOfKind m .audio))) ∧
    parse_mpd (renderManifest
        [⟨.video, [⟨500, "v500"⟩, ⟨1500, "v1500"⟩, ⟨900, "v900"⟩]⟩,
         ⟨.audio, [⟨128, "a128"⟩, ⟨256, "a256"⟩]⟩])
      = (some "v1500", some "a256") := by
  constructor
  · intro m
    have hinit : MpdInv mpdInit [] [] := ⟨rfl, rfl, rfl, rfl⟩
    have h := run_sets m mpdInit [] [] hinit
    obtain ⟨e1, e2, e3, e4⟩ := h
    simp only [List.nil_append] at e3 e4
    simp [parse_mpd, renderManifest, e3, e4]
  · decide

/-! ## Proofs about the scheduler, dedup and counters (C2, C10) -/

/-- C2 (amended): in a non-dry-run, if a file already exists at the task's
canonical filename — and only then — `schedule_task` increments `skipped`
and stops: the filesystem, the fetch log and the other outcome counters are
unchanged.  (The claim's alternate-path clause is refuted by
`schedule_task_alternate_path_is_fetched`: only the canonical path itself is
checked.) -/
theorem schedule_task_skips_existing_canonical (cfg : Config) (task : DownloadTask)
    (o : Oracle) (s : RunState)
    (hdl : cfg.should_download = true)
    (hfs : get_filename cfg task ∈ s.fs) :
    schedule_task cfg task o s =
      { s with supported := s.supported + 1, skipped := s.skipped + 1 } := by
  simp [schedule_task, hdl, hfs]

theorem schedule_task_skips_existing_canonical_witness :
    schedule_task cfgHash taskGif oracleOk
        ⟨0, 0, 0, 0, [get_filename cfgHash taskGif], []⟩
      = { supported := 1, skipped := 1, downloaded := 0, failed := 0,
          fs := [get_filename cfgHash taskGif], fetched := [] } :=
  schedule_task_skips_existing_canonical cfgHash taskGif oracleOk
    ⟨0, 0, 0, 0, [get_filename cfgHash taskGif], []⟩ rfl (List.mem_cons_self _ _)

/-- C2 counterexample: with a file present only at the post-conversion
alternate path (the `.mp4` twin of the canonical `.gif` path),
`schedule_task` does not skip — it performs the fetch (the URL is passed to
`download_media`), `skipped` stays 0 and `downloaded` becomes 1 — refuting
the claim that the alternate path also triggers the dedup skip. -/
theorem schedule_task_alternate_path_is_fetched :
    replaceStr (get_filename cfgHash taskGif) ".gif" ".mp4"
      = "./pics/088e234eab05fd524f80736a8ce65dfc.mp4" ∧
    (schedule_task cfgHash taskGif oracleOk
        ⟨0, 0, 0, 0, ["./pics/088e234eab05fd524f80736a8ce65dfc.mp4"], []⟩).fetched
      = ["https://i.redd.it/abc.gif"] ∧
    (schedule_task cfgHash taskGif oracleOk
        ⟨0, 0, 0, 0, ["./pics/088e234eab05fd524f80736a8ce65dfc.mp4"], []⟩).skipped
      = 0 ∧
    (schedule_task cfgHash taskGif oracleOk
        ⟨0, 0, 0, 0, ["./pics/088e234eab05fd524f80736a8ce65dfc.mp4"], []⟩).downloaded
      = 1 :=
  ⟨by decide, by decide, by decide, by decide⟩

lemma schedule_task_delta (cfg : Config) (task : DownloadTask) (o : Oracle) (s : RunState) :
    (schedule_task cfg task o s).supported = s.supported + 1 ∧
    (((schedule_task cfg task o s).skipped = s.skipped + 1 ∧
      (schedule_task cfg task o s).downloaded = s.downloaded ∧
      (schedule_task cfg task o s).failed = s.failed) ∨
     ((schedule_task cfg task o s).downloaded = s.downloaded + 1 ∧
      (schedule_task cfg task o s).skipped = s.skipped ∧
      (schedule_task cfg task o s).failed = s.failed) ∨
     ((schedule_task cfg task o s).failed = s.failed + 1 ∧
      (schedule_task cfg task o s).skipped = s.skipped ∧
      (schedule_task cfg task o s).downloaded = s.downloaded)) := by
  rcases o with ⟨dl, fx⟩
  by_cases hdl : cfg.should_download = true
  · by_cases hmem : get_filename cfg task ∈ s.fs
    · exact ⟨by simp [schedule_task, hdl, hmem],
        Or.inl (by simp [schedule_task, hdl, hmem])⟩
    · cases dl
      · exact ⟨by simp [schedule_task, hdl, hmem],
          Or.inr (Or.inl (by simp [schedule_task, hdl, hmem]))⟩
      · exact ⟨by simp [schedule_task, hdl, hmem],
          Or.inr (Or.inr (by simp [schedule_task, hdl, hmem]))⟩
      · exact ⟨by simp [schedule_task, hdl, hmem],
          Or.inr (Or.inr (by simp [schedule_task, hdl, hmem]))⟩
  · exact ⟨by simp [schedule_task, hdl], Or.inl (by simp [schedule_task, hdl])⟩

lemma counters_ok_schedule (cfg : Config) (task : DownloadTask) (o : Oracle) (s : RunState)
    (h : s.supported = s.skipped + s.downloaded + s.failed) :
    (schedule_task cfg task o s).supported =
      (schedule_task cfg task o s).skipped + (schedule_task cfg task o s).downloaded +
        (schedule_task cfg task o s).failed := by
  obtain ⟨h1, h2⟩ := schedule_task_delta cfg task o s
  rcases h2 with ⟨a, b, c⟩ | ⟨a, b, c⟩ | ⟨a, b, c⟩ <;> omega

lemma counters_ok_fold (cfg : Config) (tasks : List DownloadTask)
    (orc : DownloadTask → Oracle) (s : RunState)
    (h : s.supported = s.skipped + s.downloaded + s.failed) :
    (tasks.foldl (fun st t => schedule_task cfg t (orc t) st) s).supported =
      (tasks.foldl (fun st t => schedule_task cfg t (orc t) st) s).skipped +
      (tasks.foldl (fun st t => schedule_task cfg t (orc t) st) s).downloaded +
      (tasks.foldl (fun st t => schedule_task cfg t (orc t) st) s).failed := by
  induction tasks generalizing s with
  | nil => simpa using h
  | cons t ts ih =>
      simp only [List.foldl_cons]
      exact ih _ (counters_ok_schedule cfg t (orc t) s h)

lemma counters_ok_process (cfg : Config) (p : PostData) (orc : DownloadTask → Oracle)
    (s : RunState) (h : s.supported = s.skipped + s.downloaded + s.failed) :
    (process cfg p orc s).supported =
      (process cfg p orc s).skipped + (process cfg p orc s).downloaded +
        (process cfg p orc s).failed := by
  unfold process
  exact counters_ok_fold cfg (mkTasks p) orc s h

/-- C10: every completed `schedule_task` call increments `supported` by
exactly 1 and exactly one of `skipped`, `downloaded`, `failed` by exactly 1,
leaving the other two unchanged (so no counter decreases); consequently a
whole run — any post list, any external outcomes — started from zeroed
counters drains with `supported = skipped + downloaded + failed`. -/
theorem schedule_task_counter_discipline :
    (∀ (cfg : Config) (task : DownloadTask) (o : Oracle) (s : RunState),
        (schedule_task cfg task o s).supported = s.supported + 1 ∧
        (((schedule_task cfg task o s).skipped = s.skipped + 1 ∧
          (schedule_task cfg task o s).downloaded = s.downloaded ∧
          (schedule_task cfg task o s).failed = s.failed) ∨
         ((schedule_task cfg task o s).downloaded = s.downloaded + 1 ∧
          (schedule_task cfg task o s).skipped = s.skipped ∧
          (schedule_task cfg task o s).failed = s.failed) ∨
         ((schedule_task cfg task o s).failed = s.failed + 1 ∧
          (schedule_task cfg task o s).skipped = s.skipped ∧
          (schedule_task cfg task o s).downloaded = s.downloaded))) ∧
    (∀ (cfg : Config) (posts : List PostData) (orc : PostData → DownloadTask → Oracle)
        (fs0 : List String),
        (posts.foldl (fun st p => process cfg p (orc p) st) ⟨0, 0, 0, 0, fs0, []⟩).supported =
          (posts.foldl (fun st p => process cfg p (orc p) st) ⟨0, 0, 0, 0, fs0, []⟩).skipped +
          (posts.foldl (fun st p => process cfg p (orc p) st) ⟨0, 0, 0, 0, fs0, []⟩).downloaded +
          (posts.foldl (fun st p => process cfg p (orc p) st) ⟨0, 0, 0, 0, fs0, []⟩).failed) := by
  constructor
  · exact schedule_task_delta
  · intro cfg posts orc fs0
    have hgen : ∀ (s : RunState), s.supported = s.skipped + s.downloaded + s.failed →
        (posts.foldl (fun st p => process cfg p (orc p) st) s).supported =
          (posts.foldl (fun st p => process cfg p (orc p) st) s).skipped +
          (posts.foldl (fun st p => process cfg p (orc p) st) s).downloaded +
          (posts.foldl (fun st p => process cfg p (orc p) st) s).failed := by
      induction posts with
      | nil => intro s h; simpa using h
      | cons p ps ih =>
          intro s h
          simp only [List.foldl_cons]
          exact ih _ (counters_ok_process cfg p (orc p) s h)
    exact hgen _ rfl

/-! ## Proofs about post-processing (C4) -/

/-- C4 (amended): with the transcoder available, a downloaded gif is handed
to ffmpeg with the fixed argument template (`ffmpeg_gif_args`: fast-start
flag, even-dimension pixel format, `.gif`→`.mp4` target); on a successful
exit the source gif is deleted and the mp4 twin exists; on a non-zero exit
the source gif is preserved but — contrary to the claim, see
`post_process_gif_failure_not_error` — no error is reported: the function
returns `Ok(())` either way. -/
theorem post_process_gif_behaviour (cfg : Config) (path : String)
    (task : DownloadTask) (fs : List String)
    (hff : cfg.ffmpeg_available = true) (hext : task.extension = GIF_EXTENSION) :
    post_process cfg path task true fs
        = ⟨.ok (), (fs ++ [replaceStr path ".gif" ".mp4"]).erase path, [ffmpeg_gif_args path]⟩ ∧
    post_process cfg path task false fs = ⟨.ok (), fs, [ffmpeg_gif_args path]⟩ := by
  unfold post_process
  simp [hff, hext]

theorem post_process_gif_behaviour_witness :
    post_process cfgHash "./pics/a.gif" taskGif true ["./pics/a.gif"]
        = ⟨.ok (), (["./pics/a.gif"] ++ [replaceStr "./pics/a.gif" ".gif" ".mp4"]).erase
            "./pics/a.gif", [ffmpeg_gif_args "./pics/a.gif"]⟩ ∧
    post_process cfgHash "./pics/a.gif" taskGif false ["./pics/a.gif"]
        = ⟨.ok (), ["./pics/a.gif"], [ffmpeg_gif_args "./pics/a.gif"]⟩ :=
  post_process_gif_behaviour cfgHash "./pics/a.gif" taskGif ["./pics/a.gif"] rfl rfl

/-- C4 counterexample: on a non-zero transcoder exit `post_process` returns
`Ok(())` — the non-zero exit is silently ignored, not "a processing error"
as the claim states (the source gif is preserved, as the claim also says). -/
theorem post_process_gif_failure_not_error :
    (post_process cfgHash "./pics/a.gif" taskGif false ["./pics/a.gif"]).res = .ok () ∧
    (post_process cfgHash "./pics/a.gif" taskGif false ["./pics/a.gif"]).fs
        = ["./pics/a.gif"] := by
  decide

/-! ## Proofs about the mux step (C5) -/

/-- C5 (amended): when the stitching (mux) ffmpeg invocation fails, the step
only writes an ffmpeg log file (named by `generate_file_name` with extension
`log`) next to the would-be combined file; both single-stream component
files — the audio-only one included — are left in place, contrary to the
claim that the orphaned audio-only file is removed (see
`assemble_failure_keeps_audio`). -/
theorem assemble_failure_keeps_components (cfg : Config) (fs media_files : List String)
    (first_url subreddit name title : String) :
    assemble_components cfg fs media_files first_url subreddit name title false
      = fs ++ [generate_file_name cfg first_url subreddit "log" name title "0"] := by
  unfold assemble_components
  simp

/-- C5 counterexample: after a failed mux both the video-only and the
audio-only component files still exist — the audio-only file is not
removed. -/
theorem assemble_failure_keeps_audio :
    ("./pics/a.mp4" ∈ assemble_components cfgHash ["./pics/v.mp4", "./pics/a.mp4"]
        ["./pics/v.mp4", "./pics/a.mp4"] "https://v.redd.it/xyz/DASH_720.mp4"
        "pics" "t3_x" "t" false) ∧
    ("./pics/v.mp4" ∈ assemble_components cfgHash ["./pics/v.mp4", "./pics/a.mp4"]
        ["./pics/v.mp4", "./pics/a.mp4"] "https://v.redd.it/xyz/DASH_720.mp4"
        "pics" "t3_x" "t" false) :=
  ⟨by decide, by decide⟩

/-! ## Proofs about canonical filenames (C6) -/

/-- C6 (amended): in hash mode the filename is
`{data_directory}/{subreddit}/{md5 hex of the full URL}.{extension}` — the
digest is of the URL as given (query and fragment included), and the name,
title and component index do not enter the path at all (the right-hand side
does not mention them). -/
theorem generate_file_name_hash_mode (cfg : Config)
    (url subreddit extension name title index : String)
    (hm : cfg.use_human_readable = false) :
    generate_file_name cfg url subreddit extension name title index
      = cfg.data_directory ++ "/" ++ subreddit ++ "/" ++ md5Hex url ++ "." ++ extension := by
  unfold generate_file_name
  simp [hm]

theorem generate_file_name_hash_mode_witness :
    generate_file_name cfgHash "https://i.redd.it/abc.jpg?x=1" "pics" "jpg" "t3_x" "t" "1"
      = "." ++ "/" ++ "pics" ++ "/" ++ md5Hex "https://i.redd.it/abc.jpg?x=1" ++ "." ++ "jpg" :=
  generate_file_name_hash_mode cfgHash "https://i.redd.it/abc.jpg?x=1" "pics" "jpg"
    "t3_x" "t" "1" rfl

/-- C6 counterexample: two tasks differing only in their component index get
the *same* path (the index is ignored in hash mode), and the hashed name is
the digest of the URL *with* its query string — it differs from the digest
of the query-stripped URL, so the query does affect the name. -/
theorem hash_mode_ignores_index_and_keeps_query :
    get_filename cfgHash ⟨"https://i.redd.it/abc.jpg?x=1", "pics", "jpg", "t3_x", "t", some 0⟩
      = "./pics/8e04fe26c89fe226342e39a1638cd555.jpg" ∧
    get_filename cfgHash ⟨"https://i.redd.it/abc.jpg?x=1", "pics", "jpg", "t3_x", "t", some 1⟩
      = "./pics/8e04fe26c89fe226342e39a1638cd555.jpg" ∧
    md5Hex "https://i.redd.it/abc.jpg" = "3150671fbbaa08a7b105b13dad53886d" ∧
    "./pics/8e04fe26c89fe226342e39a1638cd555.jpg"
      ≠ "./pics/" ++ "3150671fbbaa08a7b105b13dad53886d" ++ ".jpg" :=
  ⟨by decide, by decide, by decide, by decide⟩

/-! ## Proofs about classification (C7, C8) -/

/-- C7 (amended): `get_type` returns `Gallery` exactly when *both* the
gallery metadata and the media metadata are present — then regardless of the
URL; gallery metadata alone is not enough (see
`gallery_without_metadata_not_gallery`). -/
theorem gallery_and_metadata_imply_gallery (p : PostData)
    (hg : p.gallery_data.isSome = true) (hm : p.media_metadata.isSome = true) :
    get_type p = .Gallery := by
  unfold get_type
  simp [hg, hm]

theorem gallery_and_metadata_imply_gallery_witness :
    get_type ⟨"pics", "t3_x", some "https://example.com/x", some "t",
        some [("m1", ⟨"image/png"⟩)], some ⟨[⟨"m1"⟩]⟩, none⟩ = .Gallery :=
  gallery_and_metadata_imply_gallery _ rfl rfl

/-- C7 counterexample: a post with gallery metadata present but no media
metadata is *not* classified `Gallery` (here: unknown host, so
`Unsupported`), refuting "gallery metadata present implies Gallery
regardless of other metadata". -/
theorem gallery_without_metadata_not_gallery :
    (⟨"pics", "t3_x", some "https://example.com/x", some "t",
        none, some ⟨[⟨"m1"⟩]⟩, none⟩ : PostData).gallery_data.isSome = true ∧
    get_type ⟨"pics", "t3_x", some "https://example.com/x", some "t",
        none, some ⟨[⟨"m1"⟩]⟩, none⟩ = .Unsupported :=
  ⟨rfl, by decide⟩

/-- C8 (amended): a non-gallery post whose normalized URL contains none of
the known site signatures classifies as `Unsupported`, produces zero
`DownloadTask`s, and `process` leaves the whole run state — every counter,
`failed` included, the filesystem and the fetch log — unchanged.  (There is
no unsupported counter to increment: see
`unknown_host_changes_no_counter`.) -/
theorem unknown_host_unsupported_no_tasks (p : PostData) (u : String)
    (cfg : Config) (orc : DownloadTask → Oracle) (s : RunState)
    (hng : ¬ (p.gallery_data.isSome ∧ p.media_metadata.isSome))
    (hu : get_url p = some u)
    (h1 : containsStr u REDDIT_IMAGE_SUBDOMAIN = false)
    (h2 : containsStr u REDDIT_VIDEO_SUBDOMAIN = false)
    (h3 : containsStr u REDGIFS_DOMAIN = false)
    (h4 : containsStr u GIPHY_DOMAIN = false)
    (h5 : containsStr u IMGUR_DOMAIN = false)
    (h6 : containsStr u STREAMABLE_DOMAIN = false) :
    get_type p = .Unsupported ∧ mkTasks p = [] ∧ process cfg p orc s = s := by
  have htype : get_type p = .Unsupported := by
    unfold get_type
    rw [if_neg hng, hu]
    unfold get_type_url
    simp [h1, h2, h3, h4, h5, h6]
  refine ⟨htype, ?_, ?_⟩
  · unfold mkTasks
    rw [htype]
  · unfold process mkTasks
    rw [htype]
    rfl

theorem unknown_host_unsupported_no_tasks_witness :
    get_type postUnknownHost = .Unsupported ∧ mkTasks postUnknownHost = [] ∧
      process cfgHash postUnknownHost (fun _ => oracleOk) ⟨0, 0, 0, 0, [], []⟩
        = ⟨0, 0, 0, 0, [], []⟩ :=
  unknown_host_unsupported_no_tasks postUnknownHost "https://example.com/x" cfgHash
    (fun _ => oracleOk) ⟨0, 0, 0, 0, [], []⟩ (by decide) (by decide)
    (by decide) (by decide) (by decide) (by decide) (by decide) (by decide)

/-- C8 counterexample: processing an unknown-host post leaves the run state
exactly as it was — `supported`, `skipped`, `downloaded` and `failed` (the
only counters the `Downloader` has) are all unchanged, so no "unsupported
counter" is incremented anywhere, refuting that part of the claim. -/
theorem unknown_host_changes_no_counter :
    process cfgHash postUnknownHost (fun _ => oracleOk) ⟨0, 0, 0, 0, [], []⟩
      = ⟨0, 0, 0, 0, [], []⟩ := by
  decide

/-! ## Proofs about the run loop (C9) -/

lemma inFlight_runTrace_take (posts : List PostData) (n : Nat) :
    inFlight ((runTrace posts).take n) ≤ 1 := by
  induction posts generalizing n with
  | nil => simp [runTrace, inFlight]
  | cons p ps ih =>
      match n with
      | 0 => simp [inFlight]
      | 1 =>
          have h : (runTrace (p :: ps)).take 1 = [.start p] := rfl
          rw [h]
          simp [inFlight]
      | n + 2 =>
          have h : (runTrace (p :: ps)).take (n + 2)
              = .start p :: .finish p :: (runTrace ps).take n := by
            simp [runTrace]
          rw [h]
          simpa [inFlight] using ih n

/-- C9: during every run over more than 10 posts, at no instant (no prefix
of the run's event trace) are more than 10 post-processing pipelines in
flight.  `Downloader::run` awaits each post before starting the next, so in
fact at most one pipeline is ever in flight — the ceiling is met
degenerately; no semaphore exists in src/. -/
theorem run_inflight_bounded (posts : List PostData) (n : Nat)
    (hlen : 10 < posts.length) :
    inFlight ((runTrace posts).take n) ≤ 10 :=
  Nat.le_trans (inFlight_runTrace_take posts n) (by omega)

theorem run_inflight_bounded_witness :
    inFlight ((runTrace (List.replicate 11 postUnknownHost)).take 5) ≤ 10 :=
  run_inflight_bounded (List.replicate 11 postUnknownHost) 5 (by simp)

/-! ## Proofs about the content-type probe (C3) -/

/-- C3: `check_url_has_mime_type` does not implement the claimed
"success iff the declared content type matches the requested type": its
result is independent of the requested type altogether (first conjunct),
because `matches!(content_type.subtype(), _mime_type)` uses `_mime_type` as
an irrefutable binding pattern.  At the failing input — response
`Content-Type: text/html`, requested type `jpeg` — it reports `Ok(true)`
although the subtype is `html`; only the no-header clause of the claim
(`Ok(false)`) holds. -/
theorem check_url_has_mime_type_ignores_requested_type :
    (∀ (resp : HeadResponse) (t1 t2 : String),
        check_url_has_mime_type resp t1 = check_url_has_mime_type resp t2) ∧
    check_url_has_mime_type ⟨some "text/html"⟩ "jpeg" = .ok true ∧
    (mimeParse "text/html").map (fun m => m.2) = some "html" ∧
    check_url_has_mime_type ⟨none⟩ "jpeg" = .ok false := by
  refine ⟨?_, by decide, by decide, by decide⟩
  intro resp t1 t2
  rcases resp with ⟨ct⟩
  cases ct <;> rfl

end Gert
